import Mathlib

/-!
Verification development for the eCTF decoder firmware (`src/decoder`).

The Rust sources are shallowly embedded below.  Bytes are modelled as
natural numbers below 256, machine integers as `Nat` with explicit
wrap-around (`% 2 ^ 16`, `% 2 ^ 32`) where the Rust code relies on
wrapping, and fallible operations return `Except` or `Option`.
Cryptographic primitives (XChaCha20-Poly1305, Ed25519) are external
libraries for the firmware, so they enter the model as oracle
parameters: a decrypt oracle maps (key, nonce, tag, signature,
ciphertext) to `some plaintext` on success and `none` on any
cryptographic failure, exactly the interface `crypto.rs` exposes to
`decoder.rs` and `host_comms.rs`.
-/

namespace Decoder2025

/-- Byte strings are lists of byte values. -/
abbrev Bytes := List Nat

/-- `u64::MAX`. -/
def U64_MAX : Nat := 2 ^ 64 - 1

/-- Little-endian `u32::from_le_bytes` over the first 4 bytes. -/
def u32_from_le_bytes (bs : Bytes) : Nat :=
  (bs.take 4).foldr (fun b acc => b + 256 * acc) 0

/-- Little-endian `u64::from_le_bytes` over the first 8 bytes
(`decoder.rs` line 132 parses `payload[0..8]` this way). -/
def u64_from_le_bytes (bs : Bytes) : Nat :=
  (bs.take 8).foldr (fun b acc => b + 256 * acc) 0

/-- `u32::to_ne_bytes` (the target is little-endian ARM). -/
def u32_to_le_bytes (w : Nat) : Bytes :=
  [w % 256, w / 256 % 256, w / 2 ^ 16 % 256, w / 2 ^ 24 % 256]

/-- Take `count` consecutive bytes from a byte stream starting at `off`.
Models consecutive blocking `read_byte` calls on the UART. -/
def stream_take (body : Nat → Nat) (off count : Nat) : Bytes :=
  (List.range count).map (fun i => body (off + i))

/-- The error enumeration of `host_comms.rs` (`DecoderError`). -/
inductive DecoderError
  | ExpectedAckButGotOther
  | NoMoreSubscriptionSpace
  | FrameTooLarge
  | NoSubscription
  | SubscriptionTimeMismatch
  | SerializationFailed
  | SavingFailed
  | FailedDecryption
  | FrameOutOfOrder
  | PacketWrongSize
  | InvalidCommand
deriving DecidableEq, Repr

/-- `DecoderError::message` from `host_comms.rs`: the fixed per-kind
message string sent to the host. -/
def DecoderError.message : DecoderError → String
  | .ExpectedAckButGotOther => "Expected ACK but got unexpected byte"
  | .NoMoreSubscriptionSpace => "Attempted to add a subscription, but subscription space is full"
  | .FrameTooLarge => "Was asked to decode a frame which is larger than 64 bytes"
  | .NoSubscription => "Was asked to decode a frame for channel that we have no subscription for"
  | .SubscriptionTimeMismatch => "Was asked to decode a frame with timestamp thats invalid for our subscription."
  | .SerializationFailed => "Failed to serialize subscription updates for flash"
  | .SavingFailed => "Failed to save subscriptions to flash"
  | .FailedDecryption => "Failed to decrypt a encrypted payload. This can mean that you used a subscription for a different decoder, or that your message was corrupted or tampered with."
  | .FrameOutOfOrder => "Was asked to decode a frame with timestamp in the past"
  | .PacketWrongSize => "Received a packet which has a constant expected size with an invalid size for the packet type"
  | .InvalidCommand => "Received a command with a type byte that is not L, S, or D"

/-- One subscription record (`decoder.rs`, struct `Subscription`). -/
structure Subscription where
  channel_id : Nat
  start_time : Nat
  end_time : Nat
  channel_key : Bytes
deriving DecidableEq, Repr

/-- Decrypt oracle standing for `crypto.rs::decrypt_encrypted_packet`:
AEAD-decrypt in place, then verify the Ed25519 signature over the
plaintext; `some plaintext` when both succeed, `none` otherwise. -/
abbrev DecryptOracle := Bytes → Bytes → Bytes → Bytes → Bytes → Option Bytes

/-- The in-RAM decoder state (`decoder.rs`, struct `Decoder`): eight
subscription slots plus the volatile `curr_time` cell. -/
structure Decoder where
  subscriptions : List (Option Subscription)
  curr_time : Option Nat
deriving DecidableEq, Repr

/-- `Decoder::get_subscription`: linear scan over occupied slots,
first slot whose `channel_id` matches. -/
def Decoder.get_subscription (d : Decoder) (channel_id : Nat) : Option Subscription :=
  ((d.subscriptions.filterMap id).filter (fun s => s.channel_id == channel_id)).head?

/-- `Decoder::decode_frame` (decoder.rs lines 101-147), embedded from
the source.  The payload buffer is replaced by the plaintext on
successful decryption; the returned decoder carries the updated
`curr_time` cell. -/
def decode_with (d : Decoder) (start_time end_time : Nat) (channel_key : Bytes)
    (decrypt : DecryptOracle) (nonce tag signature : Bytes) (payload : Bytes) :
    Except DecoderError (Bytes × Decoder) :=
  match decrypt channel_key nonce tag signature payload with
  | none => .error .FailedDecryption
  | some plaintext =>
    let timestamp := u64_from_le_bytes plaintext
    if timestamp < start_time ∨ timestamp > end_time then
      .error .SubscriptionTimeMismatch
    else if (match d.curr_time with
             | some curr_time => decide (curr_time > timestamp)
             | none => false : Bool) then
      .error .FrameOutOfOrder
    else
      .ok (plaintext.drop 8, { d with curr_time := some timestamp })

def Decoder.decode_frame (d : Decoder) (channel_0_key : Bytes) (decrypt : DecryptOracle)
    (channel_id : Nat) (nonce tag signature : Bytes) (payload : Bytes) :
    Except DecoderError (Bytes × Decoder) :=
  if channel_id = 0 then
    decode_with d 0 U64_MAX channel_0_key decrypt nonce tag signature payload
  else
    match d.get_subscription channel_id with
    | some sub =>
      decode_with d sub.start_time sub.end_time sub.channel_key decrypt
        nonce tag signature payload
    | none => .error .NoSubscription

/-- The seven-step reference frame-decoding algorithm, written from the
words of spec section 4.3 (for comparison against the embedding of
`Decoder::decode_frame` above). -/
def spec_decode_frame (d : Decoder) (channel_0_key : Bytes) (decrypt : DecryptOracle)
    (channel_id : Nat) (nonce tag signature : Bytes) (payload : Bytes) :
    Except DecoderError (Bytes × Decoder) :=
  -- Step 1: resolve (start, end, key); channel 0 gets (0, u64::MAX,
  -- CHANNEL_0_KEY), other channels need a stored subscription.
  match (if channel_id = 0 then
           some (0, U64_MAX, channel_0_key)
         else
           (d.get_subscription channel_id).map
             (fun sub => (sub.start_time, sub.end_time, sub.channel_key))) with
  | none => .error .NoSubscription
  | some (start, «end», key) =>
    -- Step 2: frame-decrypt; fail FailedDecryption on any crypto error.
    match decrypt key nonce tag signature payload with
    | none => .error .FailedDecryption
    | some plaintext =>
      -- Step 3: little-endian 64-bit timestamp from the first 8 bytes.
      let timestamp := u64_from_le_bytes plaintext
      -- Step 4: window check.
      if timestamp < start ∨ timestamp > «end» then
        .error .SubscriptionTimeMismatch
      -- Step 5: replay check; equal timestamps are accepted.
      else if (match d.curr_time with
               | some last_timestamp => decide (last_timestamp > timestamp)
               | none => false : Bool) then
        .error .FrameOutOfOrder
      else
        -- Steps 6 and 7: set last_timestamp, return the post-timestamp slice.
        .ok (plaintext.drop 8, { d with curr_time := some timestamp })

/-! ### Postcard serialization of the subscription table

`decoder.rs` persists `[Option<Subscription>; 8]` with `postcard`
(`from_bytes` in `Decoder::new`, `to_extend` in
`flush_subscriptions`).  Postcard encodes a fixed-size array as its
elements in order, `Option` as a `0`/`1` discriminant byte, `u32`/`u64`
as LEB128 varints (at most 5 resp. 10 bytes) and `[u8; 32]` as 32 raw
bytes. -/

/-- LEB128 varint parser with a byte budget (postcard rejects varints
longer than the budget for the integer width). -/
def parse_varint : Nat → Bytes → Option (Nat × Bytes)
  | 0, _ => none
  | _ + 1, [] => none
  | budget + 1, b :: rest =>
    if b < 128 then
      some (b, rest)
    else
      match parse_varint budget rest with
      | some (v, r) => some (b % 128 + 128 * v, r)
      | none => none

/-- Split off exactly `n` bytes, failing on short input. -/
def parse_bytes_exact (n : Nat) (bs : Bytes) : Option (Bytes × Bytes) :=
  if n ≤ bs.length then some (bs.take n, bs.drop n) else none

/-- Postcard deserialization of one `Subscription`. -/
def parse_subscription (bs : Bytes) : Option (Subscription × Bytes) := do
  let (channel_id, bs) ← parse_varint 5 bs
  let (start_time, bs) ← parse_varint 10 bs
  let (end_time, bs) ← parse_varint 10 bs
  let (channel_key, bs) ← parse_bytes_exact 32 bs
  some (⟨channel_id, start_time, end_time, channel_key⟩, bs)

/-- Postcard deserialization of one `Option<Subscription>`. -/
def parse_option_subscription (bs : Bytes) : Option (Option Subscription × Bytes) :=
  match bs with
  | [] => none
  | 0 :: rest => some (none, rest)
  | 1 :: rest => (parse_subscription rest).map (fun p => (some p.1, p.2))
  | _ => none

/-- Postcard deserialization of `n` consecutive table slots. -/
def parse_subscription_slots : Nat → Bytes → Option (List (Option Subscription) × Bytes)
  | 0, bs => some ([], bs)
  | n + 1, bs => do
    let (o, bs) ← parse_option_subscription bs
    let (os, bs) ← parse_subscription_slots n bs
    some (o :: os, bs)

/-- `postcard::from_bytes::<[Option<Subscription>; 8]>` (trailing bytes
after a complete value are ignored). -/
def from_bytes_table (bs : Bytes) : Option (List (Option Subscription)) :=
  (parse_subscription_slots 8 bs).map Prod.fst

/-- LEB128 varint encoder.  The byte budget of 10 covers the whole
`u64` domain that postcard serializes (`ceil(64 / 7) = 10`). -/
def encode_varint_aux : Nat → Nat → Bytes
  | 0, v => [v % 128]
  | budget + 1, v =>
    if v < 128 then [v] else (v % 128 + 128) :: encode_varint_aux budget (v / 128)

def encode_varint (v : Nat) : Bytes :=
  encode_varint_aux 10 v

/-- Postcard serialization of one `Subscription`. -/
def serialize_subscription (s : Subscription) : Bytes :=
  encode_varint s.channel_id ++ encode_varint s.start_time ++
    encode_varint s.end_time ++ s.channel_key

/-- Postcard serialization of one table slot. -/
def serialize_option_subscription : Option Subscription → Bytes
  | none => [0]
  | some s => 1 :: serialize_subscription s

/-- Postcard serialization of the whole table, as produced by
`postcard::to_extend(&self.subscriptions, ...)`. -/
def serialize_table (subscriptions : List (Option Subscription)) : Bytes :=
  (subscriptions.map serialize_option_subscription).flatten

/-- `Decoder::new` (decoder.rs lines 26-45): deserialize the storage
buffer, fall back to the all-empty default on any parse error; the
`curr_time` cell starts out `None`. -/
def Decoder.new (buf : Bytes) : Decoder :=
  { subscriptions := (from_bytes_table buf).getD (List.replicate 8 none),
    curr_time := none }

/-! ### Registering subscriptions

`Decoder::register_subscription` holds a `&mut DecoderStorage`; the
persistent side is modelled by an `Option Bytes` carrying the plaintext
image that the last successful flush wrote (the byte-exact flash write
sequence of `flush_buffer` is modelled separately below).  Flash write
failures are a possibility of the flash controller, so they enter as
the boolean parameter `flash_ok`. -/

/-- The `find`-and-overwrite step of `register_subscription`: replace
the first occupied slot whose `channel_id` matches. -/
def replace_first_match : List (Option Subscription) → Subscription →
    List (Option Subscription)
  | [], _ => []
  | none :: rest, s => none :: replace_first_match rest s
  | some t :: rest, s =>
    if t.channel_id == s.channel_id then
      some s :: rest
    else
      some t :: replace_first_match rest s

/-- The second step of `register_subscription`: place the subscription
into the first empty slot. -/
def place_first_empty : List (Option Subscription) → Subscription →
    List (Option Subscription)
  | [], _ => []
  | none :: rest, s => some s :: rest
  | some t :: rest, s => some t :: place_first_empty rest s

/-- `Decoder::flush_subscriptions`: serialize the table into the
storage buffer and flush it (the serialized table of 8 slots is at
most 8 * 58 = 464 bytes, well under the 1024-byte buffer capacity, so
`to_extend` itself cannot fail). -/
def Decoder.flush_subscriptions (d : Decoder) (flash_ok : Bool) :
    Except DecoderError (Option Bytes) :=
  if flash_ok then
    .ok (some (serialize_table d.subscriptions))
  else
    .error .SavingFailed

/-- `Decoder::register_subscription` (decoder.rs lines 51-72).
Returns the new decoder state together with the persisted image. -/
def Decoder.register_subscription (d : Decoder) (new_sub : Subscription)
    (flash_ok : Bool) : Except DecoderError (Decoder × Option Bytes) :=
  if (d.subscriptions.filterMap id).any
      (fun s => s.channel_id == new_sub.channel_id) then
    let d' := { d with subscriptions := replace_first_match d.subscriptions new_sub }
    (d'.flush_subscriptions flash_ok).map (fun p => (d', p))
  else if d.subscriptions.any (fun s => s.isNone) then
    let d' := { d with subscriptions := place_first_empty d.subscriptions new_sub }
    (d'.flush_subscriptions flash_ok).map (fun p => (d', p))
  else
    .error .NoMoreSubscriptionSpace

/-- The channel ids of the occupied slots, in slot order. -/
def table_channel_ids (subscriptions : List (Option Subscription)) : List Nat :=
  (subscriptions.filterMap id).map (fun s => s.channel_id)

/-- The table invariant: at most one slot per `channel_id`. -/
def at_most_one_per_channel (subscriptions : List (Option Subscription)) : Prop :=
  (table_channel_ids subscriptions).Nodup

/-! ### Flow-controlled payload transfer (host_comms.rs lines 304-393)

`DecoderPayloadWriter::write_byte` sends the byte and then, when the
pre-increment `bytes_written` counter is a nonzero multiple of 256,
blocks on `read_ack`; `finish_payload` waits for one final ACK.
`DecoderPayloadReader` mirrors this with `write_ack`.  The functions
below count the ACKs exchanged while transferring `n` payload bytes. -/

/-- ACKs read by `DecoderPayloadWriter` inside the byte loop, starting
from counter value `bytes_written` with `n` bytes still to send. -/
def writer_mid_acks : Nat → Nat → Nat
  | _, 0 => 0
  | bytes_written, n + 1 =>
    (if bytes_written % 256 = 0 ∧ bytes_written ≠ 0 then 1 else 0) +
      writer_mid_acks (bytes_written + 1) n

/-- Total ACKs the writer waits for during an `n`-byte payload
transfer: the in-loop ACKs plus the one from `finish_payload`. -/
def writer_total_acks (n : Nat) : Nat :=
  writer_mid_acks 0 n + 1

/-- ACKs written by `DecoderPayloadReader` inside the byte loop. -/
def reader_mid_acks : Nat → Nat → Nat
  | _, 0 => 0
  | bytes_read, n + 1 =>
    (if bytes_read % 256 = 0 ∧ bytes_read ≠ 0 then 1 else 0) +
      reader_mid_acks (bytes_read + 1) n

/-- Total ACKs the reader sends for an `n`-byte payload: the in-loop
ACKs plus the one from `finish_payload`. -/
def reader_total_acks (n : Nat) : Nat :=
  reader_mid_acks 0 n + 1

/-! ### The flash persistence layer (flash.rs)

Flash is modelled as a map from byte addresses to the 32-bit word
stored there; `erase_page` sets every word of the reserved page to the
erased pattern `0xFFFFFFFF`, `write_128` writes four consecutive words
and `write_32` one.  `DecoderStorage::flush_buffer` is embedded as the
list of flash operations it performs, in order. -/

def PERSIST_BASE_ADDR : Nat := 0x10044000
def DATA_LEN_ADDR : Nat := PERSIST_BASE_ADDR + 4
def DATA_BASE_ADDR : Nat := PERSIST_BASE_ADDR + 16 * 3
def FLASH_INITIALIZED_MAGIC : Nat := 0x4d696b75
def STORAGE_MAX : Nat := 1024
/-- MAX78000 flash page size in bytes. -/
def FLASH_PAGE_SIZE : Nat := 8192
/-- The word value of erased flash. -/
def ERASED_WORD : Nat := 0xFFFFFFFF

/-- Word-addressed flash contents. -/
abbrev Flash := Nat → Nat

/-- One flash-controller operation issued by `DecoderStorage`. -/
inductive FlashOp
  | erase_page (addr : Nat)
  | write_128 (addr : Nat) (w0 w1 w2 w3 : Nat)
  | write_32 (addr : Nat) (w : Nat)
deriving DecidableEq, Repr

/-- Effect of one flash operation on the flash contents. -/
def FlashOp.apply (f : Flash) : FlashOp → Flash
  | .erase_page a => fun x =>
      if a ≤ x ∧ x < a + FLASH_PAGE_SIZE then ERASED_WORD else f x
  | .write_128 a w0 w1 w2 w3 => fun x =>
      if x = a then w0
      else if x = a + 4 then w1
      else if x = a + 8 then w2
      else if x = a + 12 then w3
      else f x
  | .write_32 a w => fun x => if x = a then w else f x

/-- Replay a list of flash operations in order. -/
def apply_ops (ops : List FlashOp) (f : Flash) : Flash :=
  ops.foldl FlashOp.apply f

/-- The ciphertext write loop of `flush_buffer` (flash.rs lines
235-261): buffer all full 4-byte chunks into a bank of four `u32`
registers, emitting a `write_128` each time the bank fills; the
trailing `write_128` pads the final chunk with `0xFF` bytes into the
current bank (stale bank entries beyond index `i` are written as-is). -/
def data_write_ops : List Bytes → (regs : List Nat) → (i : Nat) →
    (cursor : Nat) → Bytes → List FlashOp
  | [], regs, i, cursor, remainder =>
    let final_bytes := remainder ++ List.replicate (4 - remainder.length) 0xFF
    let regs' := regs.set i (u32_from_le_bytes final_bytes)
    [.write_128 cursor (regs'.getD 0 0) (regs'.getD 1 0) (regs'.getD 2 0) (regs'.getD 3 0)]
  | chunk :: chunks, regs, i, cursor, remainder =>
    let regs' := regs.set i (u32_from_le_bytes chunk)
    if i + 1 = 4 then
      .write_128 cursor (regs'.getD 0 0) (regs'.getD 1 0) (regs'.getD 2 0) (regs'.getD 3 0) ::
        data_write_ops chunks regs' 0 (cursor + 16) remainder
    else
      data_write_ops chunks regs' (i + 1) cursor remainder

/-- `array_chunks::<4>` of the buffer: the full 4-byte chunks. -/
def chunks4 : Bytes → List Bytes
  | b0 :: b1 :: b2 :: b3 :: rest => [b0, b1, b2, b3] :: chunks4 rest
  | _ => []

/-- `array_chunks::<4>` remainder: the trailing `len % 4` bytes. -/
def chunks4_remainder (bs : Bytes) : Bytes :=
  bs.drop (bs.length / 4 * 4)

/-- `DecoderStorage::flush_buffer` (flash.rs lines 189-272) as the
ordered list of flash operations it performs.  `cipher` is the
encrypted buffer contents (`encrypt_flash_buffer` encrypts in place
and returns the fresh `nonce` and the `tag`). -/
def flush_buffer_ops (cipher nonce tag : Bytes) : List FlashOp :=
  [FlashOp.erase_page PERSIST_BASE_ADDR,
   -- header block; the magic slot is deliberately left at 0xFFFFFFFF
   FlashOp.write_128 PERSIST_BASE_ADDR 0xFFFFFFFF cipher.length
     (u32_from_le_bytes (nonce.take 4)) (u32_from_le_bytes (nonce.drop 4)),
   -- low-nonce block
   FlashOp.write_128 (PERSIST_BASE_ADDR + 16)
     (u32_from_le_bytes (nonce.drop 8)) (u32_from_le_bytes (nonce.drop 12))
     (u32_from_le_bytes (nonce.drop 16)) (u32_from_le_bytes (nonce.drop 20)),
   -- tag block
   FlashOp.write_128 (PERSIST_BASE_ADDR + 32)
     (u32_from_le_bytes tag) (u32_from_le_bytes (tag.drop 4))
     (u32_from_le_bytes (tag.drop 8)) (u32_from_le_bytes (tag.drop 12))] ++
  data_write_ops (chunks4 cipher) [0, 0, 0, 0] 0 DATA_BASE_ADDR
    (chunks4_remainder cipher) ++
  -- the initialization magic is written last
  [FlashOp.write_32 PERSIST_BASE_ADDR FLASH_INITIALIZED_MAGIC]

/-! ### Reading persistent state back (flash.rs lines 117-185) -/

/-- The word-read loop of `fill_buffer`: append whole little-endian
words while at least 4 bytes remain, then the leading `remaining`
bytes of one final word. -/
def read_data_bytes (f : Flash) (cursor remaining : Nat) : Bytes :=
  if remaining ≥ 4 then
    u32_to_le_bytes (f cursor) ++ read_data_bytes f (cursor + 4) (remaining - 4)
  else if remaining = 0 then
    []
  else
    (u32_to_le_bytes (f cursor)).take remaining
termination_by remaining
decreasing_by omega

/-- Flash-decrypt oracle standing for `crypto.rs::decrypt_flash_buffer`
under the build-time `FLASH_KEY`: (ciphertext, nonce, tag) to
`some plaintext` or `none`. -/
abbrev FlashDecryptOracle := Bytes → Bytes → Bytes → Option Bytes

/-- The nonce reassembled from the header blocks in `fill_buffer`. -/
def stored_nonce (f : Flash) : Bytes :=
  u32_to_le_bytes (f (PERSIST_BASE_ADDR + 8)) ++
  u32_to_le_bytes (f (PERSIST_BASE_ADDR + 12)) ++
  u32_to_le_bytes (f (PERSIST_BASE_ADDR + 16)) ++
  u32_to_le_bytes (f (PERSIST_BASE_ADDR + 20)) ++
  u32_to_le_bytes (f (PERSIST_BASE_ADDR + 24)) ++
  u32_to_le_bytes (f (PERSIST_BASE_ADDR + 28))

/-- The tag reassembled from the third header block in `fill_buffer`. -/
def stored_tag (f : Flash) : Bytes :=
  u32_to_le_bytes (f (PERSIST_BASE_ADDR + 32)) ++
  u32_to_le_bytes (f (PERSIST_BASE_ADDR + 36)) ++
  u32_to_le_bytes (f (PERSIST_BASE_ADDR + 40)) ++
  u32_to_le_bytes (f (PERSIST_BASE_ADDR + 44))

/-- `DecoderStorage::fill_buffer` (flash.rs lines 117-185): read the
length and ciphertext, reassemble nonce and tag, decrypt in place; on
decryption failure zeroize and clear the buffer and still return
`Ok`.  The returned bytes are the resulting RAM buffer contents. -/
inductive DecoderStorageReadError
  | FlashLengthTooLarge
  | FlashError
deriving DecidableEq, Repr

def fill_buffer (f : Flash) (decrypt_flash : FlashDecryptOracle) :
    Except DecoderStorageReadError Bytes :=
  let length := f DATA_LEN_ADDR
  if length > STORAGE_MAX then
    .error .FlashLengthTooLarge
  else
    let buf := read_data_bytes f DATA_BASE_ADDR length
    match decrypt_flash buf (stored_nonce f) (stored_tag f) with
    | some plaintext => .ok plaintext
    | none => .ok []

/-- `DecoderStorage::init` (flash.rs lines 79-101), restricted to the
resulting RAM buffer: an absent magic resets the storage to an empty
buffer, a present magic reads and decrypts the stored image. -/
def storage_init (f : Flash) (decrypt_flash : FlashDecryptOracle) :
    Except DecoderStorageReadError Bytes :=
  if f PERSIST_BASE_ADDR ≠ FLASH_INITIALIZED_MAGIC then
    .ok []
  else
    fill_buffer f decrypt_flash

/-! ### The command dispatcher (cmd_logic.rs, host_comms.rs, main.rs)

`run_command` is embedded as a function from the parsed request header
(`Err` carries the unrecognized command byte, as in
`read_command_header`) and the request body byte stream to a report, a
count of body bytes consumed, an observable event trace, and the new
decoder/persistence state.  The event granularity is one event per
console exchange; the per-256-byte ACK positions inside a payload
transfer are modelled by `writer_mid_acks`/`reader_mid_acks` above. -/

/-- The message types accepted by `read_command_header`. -/
inductive DecoderMessageType
  | List
  | Subscribe
  | Decode
deriving DecidableEq, Repr

/-- `DecoderPacketHeader` from host_comms.rs. -/
structure DecoderPacketHeader where
  msg_type : DecoderMessageType
  size : Nat
deriving DecidableEq, Repr

/-- Observable events of one main-loop iteration. -/
inductive Ev
  | write_ack
  | read_ack
  | read_body (count : Nat)
  | write_response (cmd : Nat) (len : Nat)
  | write_error (msg : String)
  | write_debug (msg : String)
  | clock_start
  | clock_wait
deriving DecidableEq, Repr

/-- How the outcome of a request is reported to the host. -/
inductive CmdReport
  | dyn_error (msg : String)
  | err (e : DecoderError)
  | ok
deriving DecidableEq, Repr

/-- Result of one `run_command` call. -/
structure CmdResult where
  report : CmdReport
  body_consumed : Nat
  events : List Ev
deriving DecidableEq, Repr

def ENCODER_CRYPTO_HEADER_LEN : Nat := 24 + 16 + 64

def SUBSCRIPTION_MESSAGE_SIZE : Nat := 4 + 8 + 8 + 32 + ENCODER_CRYPTO_HEADER_LEN

/-- Wrapping `u16` subtraction, as performed by
`packet_length - 4 - 8 - (ENCODER_CRYPTO_HEADER_LEN) as u16` in a
release build. -/
def u16_wrapping_sub (a b : Nat) : Nat :=
  (a % 2 ^ 16 + (2 ^ 16 - b % 2 ^ 16)) % 2 ^ 16

/-- The `frame_length` computation of `DecoderConsole::decode_frame`
(host_comms.rs line 194). -/
def console_frame_length (packet_length : Nat) : Nat :=
  u16_wrapping_sub packet_length (4 + 8 + ENCODER_CRYPTO_HEADER_LEN)

/-- `DecoderConsole::decode_frame` (host_comms.rs lines 191-231):
compute the frame length with wrapping arithmetic, reject oversized
frames before touching the body, otherwise read the crypto header and
payload, run `Decoder::decode_frame` and write the frame back.
Returns the handler result, the body bytes consumed and the events. -/
def console_decode_frame (d : Decoder) (channel_0_key : Bytes)
    (decrypt : DecryptOracle) (packet_length : Nat) (body : Nat → Nat) :
    Except DecoderError Decoder × Nat × List Ev :=
  let frame_length := console_frame_length packet_length
  let payload_length := (frame_length + 8) % 2 ^ 16
  if frame_length > 64 then
    (.error .FrameTooLarge, 0, [])
  else
    let channel_id := u32_from_le_bytes (stream_take body 0 4)
    let nonce := stream_take body 4 24
    let tag := stream_take body 28 16
    let signature := stream_take body 44 64
    let payload := stream_take body 108 payload_length
    let consumed := 108 + payload_length
    match d.decode_frame channel_0_key decrypt channel_id nonce tag signature payload with
    | .error e => (.error e, consumed, [.read_body consumed, .write_ack])
    | .ok (_, d') =>
      (.ok d', consumed,
       [.read_body consumed, .write_ack,
        .write_response 68 frame_length, .read_ack, .read_ack])

/-- `DecoderConsole::read_subscription` (host_comms.rs lines 153-186):
read nonce, tag, signature and 52-byte ciphertext, decrypt with the
decoder key, parse the little-endian fields. -/
def console_read_subscription (decoder_key : Bytes) (decrypt : DecryptOracle)
    (body : Nat → Nat) : Except DecoderError Subscription :=
  let nonce := stream_take body 0 24
  let tag := stream_take body 24 16
  let signature := stream_take body 40 64
  let enc_body := stream_take body 104 52
  match decrypt decoder_key nonce tag signature enc_body with
  | none => .error .FailedDecryption
  | some plain =>
    .ok { channel_id := u32_from_le_bytes (plain.take 4),
          start_time := u64_from_le_bytes (plain.drop 4),
          end_time := u64_from_le_bytes (plain.drop 12),
          channel_key := (plain.drop 20).take 32 }

/-- The dynamically formatted error string of the List size check
(cmd_logic.rs line 32). -/
def list_size_error_message (size : Nat) : String :=
  "List message packet should not have a body, but had a body of " ++
    toString size ++ " bytes"

/-- The dynamically formatted error string of the Subscribe size check
(cmd_logic.rs lines 45-48). -/
def subscribe_size_error_message (size : Nat) : String :=
  "Subscription message should have a size of " ++
    toString SUBSCRIPTION_MESSAGE_SIZE ++ ", was " ++ toString size

/-- The dynamically formatted error string for an unrecognized command
byte (cmd_logic.rs line 71). -/
def invalid_command_error_message (byte : Nat) : String :=
  "Expected a L, S, or D command, got byte " ++ toString byte

/-- `cmd_logic::run_command`, embedded from the source.  `hdr` is the
result of `read_command_header` (which has already written the header
ACK on success, the leading `Ev.write_ack`); `persisted` is the
plaintext image behind the storage as in `register_subscription`. -/
def run_command (hdr : Except Nat DecoderPacketHeader) (d : Decoder)
    (persisted : Option Bytes) (channel_0_key decoder_key : Bytes)
    (decrypt : DecryptOracle) (flash_ok : Bool) (body : Nat → Nat) :
    CmdResult × Decoder × Option Bytes :=
  match hdr with
  | .error byte =>
    (⟨.dyn_error (invalid_command_error_message byte), 0,
      [.write_error (invalid_command_error_message byte)]⟩, d, persisted)
  | .ok h =>
    match h.msg_type with
    | .List =>
      if h.size ≠ 0 then
        (⟨.dyn_error (list_size_error_message h.size), 0,
          [.write_ack, .write_error (list_size_error_message h.size)]⟩, d, persisted)
      else
        let count := (d.subscriptions.filterMap id).length
        (⟨.ok, 0,
          [.write_ack, .write_ack,
           .write_response 76 (count * 20 + 4), .read_ack, .read_ack]⟩, d, persisted)
    | .Subscribe =>
      if h.size ≠ SUBSCRIPTION_MESSAGE_SIZE then
        (⟨.dyn_error (subscribe_size_error_message h.size), 0,
          [.write_ack, .write_error (subscribe_size_error_message h.size)]⟩, d, persisted)
      else
        match console_read_subscription decoder_key decrypt body with
        | .error e =>
          (⟨.err e, SUBSCRIPTION_MESSAGE_SIZE,
            [.write_ack, .write_ack, .read_body SUBSCRIPTION_MESSAGE_SIZE,
             .write_ack]⟩, d, persisted)
        | .ok sub =>
          match d.register_subscription sub flash_ok with
          | .error e =>
            (⟨.err e, SUBSCRIPTION_MESSAGE_SIZE,
              [.write_ack, .write_ack, .read_body SUBSCRIPTION_MESSAGE_SIZE,
               .write_ack]⟩, d, persisted)
          | .ok (d', persisted') =>
            (⟨.ok, SUBSCRIPTION_MESSAGE_SIZE,
              [.write_ack, .write_ack, .read_body SUBSCRIPTION_MESSAGE_SIZE,
               .write_ack, .write_response 83 0, .read_ack]⟩, d', persisted')
    | .Decode =>
      match console_decode_frame d channel_0_key decrypt h.size body with
      | (.error e, consumed, evs) =>
        (⟨.err e, consumed, .write_ack :: .write_ack :: evs⟩, d, persisted)
      | (.ok d', consumed, evs) =>
        (⟨.ok, consumed, .write_ack :: .write_ack :: evs⟩, d', persisted)

/-- One iteration of the `main` loop (main.rs lines 107-111): run the
command, and if it returned an error, `DecoderError::write_to_console`
prints the debug copy and then the `E` response, immediately.  Neither
`main` nor `run_command` constructs, starts or waits on a
`DecoderClock`, so no clock event is ever emitted. -/
def main_loop_iter (hdr : Except Nat DecoderPacketHeader) (d : Decoder)
    (persisted : Option Bytes) (channel_0_key decoder_key : Bytes)
    (decrypt : DecryptOracle) (flash_ok : Bool) (body : Nat → Nat) :
    List Ev × Decoder × Option Bytes :=
  match run_command hdr d persisted channel_0_key decoder_key decrypt flash_ok body with
  | (res, d', persisted') =>
    match res.report with
    | .err e =>
      (res.events ++ [.write_debug e.message, .write_error e.message], d', persisted')
    | _ => (res.events, d', persisted')

/-! ### The transaction clock (timer.rs)

`DecoderClock` counts 10 ms ticks.  `wait_for_instant` spins until the
tick counter reaches the requested instant, and
`wait_for_max_transaction_time` waits for the transaction start plus
5000 ms, doing nothing when no transaction was ever started.  The
functions below model the tick value at which each wait returns. -/

def TRANSACTION_TIME_MILLIS : Nat := 5000

/-- Ticks are 10 ms (`Instant<u32, 100, 1>`), so the transaction
deadline is 500 ticks after the start. -/
def TRANSACTION_TIME_TICKS : Nat := TRANSACTION_TIME_MILLIS / 10

structure DecoderClock where
  transaction_time : Option Nat
deriving DecidableEq, Repr

/-- `DecoderClock::start_transaction`. -/
def DecoderClock.start_transaction (_ : DecoderClock) (now : Nat) : DecoderClock :=
  { transaction_time := some now }

/-- The tick at which `DecoderClock::wait_for_instant` returns when
called at tick `now`. -/
def wait_for_instant_return (instant now : Nat) : Nat :=
  max now instant

/-- The tick at which `DecoderClock::wait_for_max_transaction_time`
returns when called at tick `now`: it spins to the deadline when a
transaction was started and returns immediately otherwise. -/
def DecoderClock.wait_return_tick (c : DecoderClock) (now : Nat) : Nat :=
  match c.transaction_time with
  | none => now
  | some transaction_start =>
    wait_for_instant_return (transaction_start + TRANSACTION_TIME_TICKS) now

/-! ### Shared sample values for witnesses and counterexamples -/

/-- A freshly booted decoder with an empty table. -/
def sample_decoder : Decoder := ⟨List.replicate 8 none, none⟩

/-- A decrypt oracle that rejects everything. -/
def no_decrypt : DecryptOracle := fun _ _ _ _ _ => none

/-- A body stream of zero bytes. -/
def zero_stream : Nat → Nat := fun _ => 0

/-! ### Claim C2 -/

/-- Claim C2: `Decoder::decode_frame` computes exactly the 7-step
reference algorithm of spec section 4.3: channel 0 resolves to the
window (0, u64::MAX) and the channel-0 key, other channels need a
stored subscription or fail `NoSubscription`; then crypto failure
gives `FailedDecryption`; then a little-endian timestamp outside
[start, end] gives `SubscriptionTimeMismatch` (checked before the
replay check); then a timestamp strictly below `last_timestamp` gives
`FrameOutOfOrder`, equal timestamps accepted; on success the slice
after the 8-byte timestamp is returned. -/
theorem decode_frame_matches_spec (d : Decoder) (channel_0_key : Bytes)
    (decrypt : DecryptOracle) (channel_id : Nat) (nonce tag signature payload : Bytes) :
    d.decode_frame channel_0_key decrypt channel_id nonce tag signature payload =
      spec_decode_frame d channel_0_key decrypt channel_id nonce tag signature payload := by
  unfold Decoder.decode_frame spec_decode_frame decode_with
  by_cases h : channel_id = 0
  · simp [h]
  · cases hs : d.get_subscription channel_id <;> simp [h, hs]

/-! ### Claim C5 -/

theorem writer_mid_acks_closed (n : Nat) : ∀ w : Nat, 1 ≤ w →
    writer_mid_acks w n + (w + 255) / 256 = (w + n + 255) / 256 := by
  induction n with
  | zero => intro w _; simp [writer_mid_acks]
  | succ n ih =>
    intro w hw
    rw [writer_mid_acks]
    have h2 := ih (w + 1) (by omega)
    split <;> omega

theorem reader_mid_acks_closed (n : Nat) : ∀ w : Nat, 1 ≤ w →
    reader_mid_acks w n + (w + 255) / 256 = (w + n + 255) / 256 := by
  induction n with
  | zero => intro w _; simp [reader_mid_acks]
  | succ n ih =>
    intro w hw
    rw [reader_mid_acks]
    have h2 := ih (w + 1) (by omega)
    split <;> omega

set_option maxRecDepth 4000 in
/-- Counterexample to claim C5 as stated: for a 256-byte payload the
claimed count is ceil(256/256) = 1 mid-transfer ACK plus one terminal
ACK, i.e. 2, but both the writer and the reader exchange exactly one
ACK: the in-loop ACK check fires only when a byte with pre-increment
counter 256 is transferred, which never happens for a 256-byte
payload, so only the `finish_payload` ACK remains. -/
theorem ack_count_claim_fails_at_256 :
    writer_total_acks 256 = 1 ∧ reader_total_acks 256 = 1 ∧
      (256 + 255) / 256 + 1 = 2 := by
  refine ⟨by decide, by decide, by decide⟩

/-- Claim C5, amended: for an `n`-byte payload the total number of
ACKs exchanged is ceil(n/256) for `n ≥ 1` — namely
floor((n-1)/256) mid-transfer ACKs, each exchanged just after the
first byte of the following 256-byte chunk, plus one terminal ACK —
and exactly the one terminal ACK for `n = 0`. -/
theorem chunked_transfer_total_acks (n : Nat) :
    writer_total_acks n = (if n = 0 then 1 else (n + 255) / 256) ∧
      reader_total_acks n = (if n = 0 then 1 else (n + 255) / 256) ∧
      (n ≠ 0 → writer_mid_acks 0 n = (n - 1) / 256 ∧
        reader_mid_acks 0 n = (n - 1) / 256) := by
  have hw : ∀ m : Nat, writer_mid_acks 0 (m + 1) = writer_mid_acks 1 m := by
    intro m; rw [writer_mid_acks]; simp
  have hr : ∀ m : Nat, reader_mid_acks 0 (m + 1) = reader_mid_acks 1 m := by
    intro m; rw [reader_mid_acks]; simp
  cases n with
  | zero => refine ⟨by decide, by decide, by simp⟩
  | succ m =>
    have h1 := writer_mid_acks_closed m 1 (by omega)
    have h2 := reader_mid_acks_closed m 1 (by omega)
    refine ⟨?_, ?_, fun _ => ⟨?_, ?_⟩⟩
    · unfold writer_total_acks
      rw [hw m]
      simp only [Nat.succ_ne_zero, if_false]
      omega
    · unfold reader_total_acks
      rw [hr m]
      simp only [Nat.succ_ne_zero, if_false]
      omega
    · rw [hw m]; omega
    · rw [hr m]; omega

set_option maxRecDepth 4000 in
/-- Witness for the amended C5 at a concrete 300-byte payload: one
mid-transfer ACK plus the terminal ACK, two in total. -/
theorem chunked_transfer_total_acks_witness :
    writer_total_acks 300 = (if (300 : Nat) = 0 then 1 else (300 + 255) / 256) ∧
      (300 : Nat) ≠ 0 ∧ writer_mid_acks 0 300 = (300 - 1) / 256 ∧
      writer_total_acks 300 = 2 := by
  refine ⟨(chunked_transfer_total_acks 300).1, by decide,
    ((chunked_transfer_total_acks 300).2.2 (by decide)).1, by decide⟩

/-! ### Claim C3 -/

/-- One decode request: channel id, nonce, tag, signature, payload. -/
structure DecodeInput where
  channel_id : Nat
  nonce : Bytes
  tag : Bytes
  signature : Bytes
  payload : Bytes

/-- The state transition of one `decode_frame` call: the new decoder
state on success, the unchanged state on failure (the `curr_time` cell
is only written on the success path). -/
def decode_step (channel_0_key : Bytes) (decrypt : DecryptOracle)
    (d : Decoder) (inp : DecodeInput) : Decoder :=
  match d.decode_frame channel_0_key decrypt inp.channel_id inp.nonce inp.tag
      inp.signature inp.payload with
  | .ok (_, d') => d'
  | .error _ => d

/-- A sequence of `decode_frame` calls. -/
def run_decodes (channel_0_key : Bytes) (decrypt : DecryptOracle)
    (d : Decoder) (l : List DecodeInput) : Decoder :=
  l.foldl (decode_step channel_0_key decrypt) d

/-- The order on optional timestamps: absent is below everything, and
present values must not decrease. -/
def time_le : Option Nat → Option Nat → Prop
  | none, _ => True
  | some _, none => False
  | some t, some t' => t ≤ t'

theorem time_le_refl (a : Option Nat) : time_le a a := by
  cases a <;> simp [time_le]

theorem time_le_trans {a b c : Option Nat} (h1 : time_le a b) (h2 : time_le b c) :
    time_le a c := by
  cases a <;> cases b <;> cases c <;> simp_all [time_le] <;> omega

/-- The key-resolution step of `decode_frame` (decoder.rs lines
109-126), restricted to the channel key: channel 0 uses the build-time
channel-0 key, any other channel the stored subscription key. -/
def resolve_channel_key (d : Decoder) (channel_0_key : Bytes) (channel_id : Nat) :
    Option Bytes :=
  if channel_id = 0 then
    some channel_0_key
  else
    (d.get_subscription channel_id).map (fun s => s.channel_key)

theorem decode_frame_ok_state {d : Decoder} {channel_0_key : Bytes}
    {decrypt : DecryptOracle} {channel_id : Nat} {nonce tag signature payload : Bytes}
    {frame : Bytes} {d' : Decoder}
    (h : d.decode_frame channel_0_key decrypt channel_id nonce tag signature payload =
      .ok (frame, d')) :
    d'.subscriptions = d.subscriptions ∧
      ∃ key plaintext,
        resolve_channel_key d channel_0_key channel_id = some key ∧
        decrypt key nonce tag signature payload = some plaintext ∧
        frame = plaintext.drop 8 ∧
        d'.curr_time = some (u64_from_le_bytes plaintext) ∧
        time_le d.curr_time (some (u64_from_le_bytes plaintext)) := by
  unfold Decoder.decode_frame at h
  have key : ∀ st et ck, decode_with d st et ck decrypt nonce tag signature payload =
      .ok (frame, d') →
      d'.subscriptions = d.subscriptions ∧
        ∃ plaintext, decrypt ck nonce tag signature payload = some plaintext ∧
          frame = plaintext.drop 8 ∧
          d'.curr_time = some (u64_from_le_bytes plaintext) ∧
          time_le d.curr_time (some (u64_from_le_bytes plaintext)) := by
    intro st et ck hw
    unfold decode_with at hw
    cases hdec : decrypt ck nonce tag signature payload with
    | none => simp only [hdec] at hw; simp at hw
    | some plaintext =>
      simp only [hdec] at hw
      split at hw
      · simp at hw
      · split at hw
        · simp at hw
        · rename_i hwin hreplay
          simp only [Except.ok.injEq, Prod.mk.injEq] at hw
          obtain ⟨hf, hd⟩ := hw
          subst hd
          refine ⟨rfl, plaintext, rfl, hf.symm, rfl, ?_⟩
          cases hct : d.curr_time with
          | none => simp [time_le]
          | some ct =>
            rw [hct] at hreplay
            simp at hreplay
            simp only [time_le]
            omega
  by_cases h0 : channel_id = 0
  · rw [if_pos h0] at h
    obtain ⟨hsubs, plaintext, hdec, hframe, hct, hle⟩ := key _ _ _ h
    refine ⟨hsubs, channel_0_key, plaintext, ?_, hdec, hframe, hct, hle⟩
    unfold resolve_channel_key
    rw [if_pos h0]
  · rw [if_neg h0] at h
    cases hs : d.get_subscription channel_id <;> simp only [hs] at h
    · simp at h
    · rename_i sub
      obtain ⟨hsubs, plaintext, hdec, hframe, hct, hle⟩ := key _ _ _ h
      refine ⟨hsubs, sub.channel_key, plaintext, ?_, hdec, hframe, hct, hle⟩
      unfold resolve_channel_key
      rw [if_neg h0, hs]
      rfl

theorem decode_step_time_le (channel_0_key : Bytes) (decrypt : DecryptOracle)
    (d : Decoder) (inp : DecodeInput) :
    time_le d.curr_time (decode_step channel_0_key decrypt d inp).curr_time := by
  unfold decode_step
  cases h : d.decode_frame channel_0_key decrypt inp.channel_id inp.nonce inp.tag
      inp.signature inp.payload with
  | error e => exact time_le_refl _
  | ok r =>
    obtain ⟨fst, d'⟩ := r
    obtain ⟨-, key, plaintext, -, -, -, hct, hle⟩ := decode_frame_ok_state h
    simpa [hct] using hle

theorem run_decodes_time_le (channel_0_key : Bytes) (decrypt : DecryptOracle)
    (l : List DecodeInput) : ∀ d : Decoder,
    time_le d.curr_time (run_decodes channel_0_key decrypt d l).curr_time := by
  induction l with
  | nil => intro d; exact time_le_refl _
  | cons inp rest ih =>
    intro d
    exact time_le_trans (decode_step_time_le channel_0_key decrypt d inp)
      (ih (decode_step channel_0_key decrypt d inp))

/-- Claim C3: `curr_time` starts absent at boot, every failing
`decode_frame` call leaves the state unchanged, every successful call
sets it to that frame's timestamp — the little-endian 64-bit value in
the first 8 bytes of the plaintext the decrypt oracle produced for the
resolved channel key — which is never below its previous value, and it
is monotonically non-decreasing across every sequence of
`decode_frame` calls. -/
theorem curr_time_monotone :
    (∀ buf : Bytes, (Decoder.new buf).curr_time = none) ∧
    (∀ (channel_0_key : Bytes) (decrypt : DecryptOracle) (d : Decoder)
       (channel_id : Nat) (nonce tag signature payload : Bytes) (e : DecoderError),
       d.decode_frame channel_0_key decrypt channel_id nonce tag signature payload =
         .error e →
       decode_step channel_0_key decrypt d
         ⟨channel_id, nonce, tag, signature, payload⟩ = d) ∧
    (∀ (channel_0_key : Bytes) (decrypt : DecryptOracle) (d : Decoder)
       (channel_id : Nat) (nonce tag signature payload frame : Bytes) (d' : Decoder),
       d.decode_frame channel_0_key decrypt channel_id nonce tag signature payload =
         .ok (frame, d') →
       ∃ key plaintext,
         resolve_channel_key d channel_0_key channel_id = some key ∧
         decrypt key nonce tag signature payload = some plaintext ∧
         d'.curr_time = some (u64_from_le_bytes plaintext) ∧
         time_le d.curr_time (some (u64_from_le_bytes plaintext))) ∧
    (∀ (channel_0_key : Bytes) (decrypt : DecryptOracle) (d : Decoder)
       (l : List DecodeInput),
       time_le d.curr_time (run_decodes channel_0_key decrypt d l).curr_time) := by
  refine ⟨fun _ => rfl, ?_, ?_, ?_⟩
  · intro k0 dec d cid nonce tag sig payload e h
    unfold decode_step
    simp only [h]
  · intro k0 dec d cid nonce tag sig payload frame d' h
    obtain ⟨-, key, plaintext, hres, hdec, -, hct, hle⟩ := decode_frame_ok_state h
    exact ⟨key, plaintext, hres, hdec, hct, hle⟩
  · intro k0 dec d l
    exact run_decodes_time_le k0 dec l d

/-- Witness for C3 at concrete inputs: a decoder whose clock is at 5
accepts a frame whose plaintext starts with the little-endian
timestamp 7 through a decrypt oracle that accepts this payload, and
the cell moves from 5 to 7 = u64_from_le_bytes of the plaintext. -/
theorem curr_time_monotone_witness :
    (⟨List.replicate 8 none, some 5⟩ : Decoder).decode_frame []
        (fun _ _ _ _ body => some body) 0 [] [] []
        [7, 0, 0, 0, 0, 0, 0, 0, 42] =
      .ok ([42], ⟨List.replicate 8 none, some 7⟩) ∧
    ∃ key plaintext,
      resolve_channel_key ⟨List.replicate 8 none, some 5⟩ [] 0 = some key ∧
      (fun _ _ _ _ body => some body : DecryptOracle) key [] [] []
          [7, 0, 0, 0, 0, 0, 0, 0, 42] = some plaintext ∧
      (some 7 : Option Nat) = some (u64_from_le_bytes plaintext) ∧
      time_le (some 5) (some (u64_from_le_bytes plaintext)) := by
  constructor
  · rfl
  · obtain ⟨key, plaintext, hres, hdec, hct, hle⟩ := curr_time_monotone.2.2.1 []
      (fun _ _ _ _ body => some body) ⟨List.replicate 8 none, some 5⟩ 0 [] [] []
      [7, 0, 0, 0, 0, 0, 0, 0, 42] [42] ⟨List.replicate 8 none, some 7⟩ rfl
    exact ⟨key, plaintext, hres, hdec, by rw [← hct], hle⟩

/-! ### Claim C4 -/

theorem table_channel_ids_cons_none (rest : List (Option Subscription)) :
    table_channel_ids (none :: rest) = table_channel_ids rest := rfl

theorem table_channel_ids_cons_some (t : Subscription)
    (rest : List (Option Subscription)) :
    table_channel_ids (some t :: rest) = t.channel_id :: table_channel_ids rest := rfl

theorem table_channel_ids_replace (s : Subscription) :
    ∀ subs : List (Option Subscription),
    table_channel_ids (replace_first_match subs s) = table_channel_ids subs := by
  intro subs
  induction subs with
  | nil => rfl
  | cons slot rest ih =>
    cases slot with
    | none =>
      rw [show replace_first_match (none :: rest) s =
            none :: replace_first_match rest s from rfl,
        table_channel_ids_cons_none, table_channel_ids_cons_none, ih]
    | some t =>
      by_cases ht : t.channel_id = s.channel_id
      · rw [show replace_first_match (some t :: rest) s = some s :: rest from by
            simp [replace_first_match, ht],
          table_channel_ids_cons_some, table_channel_ids_cons_some, ht]
      · rw [show replace_first_match (some t :: rest) s =
              some t :: replace_first_match rest s from by
            simp [replace_first_match, ht],
          table_channel_ids_cons_some, table_channel_ids_cons_some, ih]

theorem mem_table_channel_ids_place {x : Nat} (s : Subscription) :
    ∀ subs : List (Option Subscription),
    x ∈ table_channel_ids (place_first_empty subs s) →
      x ∈ table_channel_ids subs ∨ x = s.channel_id := by
  intro subs
  induction subs with
  | nil => intro hx; exact .inl hx
  | cons slot rest ih =>
    cases slot with
    | none =>
      intro hx
      rw [show place_first_empty (none :: rest) s = some s :: rest from rfl,
        table_channel_ids_cons_some] at hx
      rw [table_channel_ids_cons_none]
      rcases List.mem_cons.mp hx with h | h
      · exact .inr h
      · exact .inl h
    | some t =>
      intro hx
      rw [show place_first_empty (some t :: rest) s =
            some t :: place_first_empty rest s from rfl,
        table_channel_ids_cons_some] at hx
      rw [table_channel_ids_cons_some]
      rcases List.mem_cons.mp hx with h | h
      · exact .inl (List.mem_cons.mpr (.inl h))
      · rcases ih h with h2 | h2
        · exact .inl (List.mem_cons.mpr (.inr h2))
        · exact .inr h2

theorem nodup_table_channel_ids_place (s : Subscription) :
    ∀ subs : List (Option Subscription),
    s.channel_id ∉ table_channel_ids subs →
    (table_channel_ids subs).Nodup →
    (table_channel_ids (place_first_empty subs s)).Nodup := by
  intro subs
  induction subs with
  | nil => intro _ _; exact List.nodup_nil
  | cons slot rest ih =>
    cases slot with
    | none =>
      intro hmem hnd
      rw [table_channel_ids_cons_none] at hmem hnd
      rw [show place_first_empty (none :: rest) s = some s :: rest from rfl,
        table_channel_ids_cons_some]
      exact List.nodup_cons.mpr ⟨hmem, hnd⟩
    | some t =>
      intro hmem hnd
      rw [table_channel_ids_cons_some] at hmem hnd
      rw [show place_first_empty (some t :: rest) s =
            some t :: place_first_empty rest s from rfl,
        table_channel_ids_cons_some]
      rw [List.nodup_cons] at hnd
      refine List.nodup_cons.mpr
        ⟨?_, ih (fun hc => hmem (List.mem_cons.mpr (.inr hc))) hnd.2⟩
      intro hc
      rcases mem_table_channel_ids_place s rest hc with h | h
      · exact hnd.1 h
      · exact hmem (List.mem_cons.mpr (.inl h.symm))

theorem not_mem_of_any_eq_false {subs : List (Option Subscription)} {c : Nat}
    (h : (subs.filterMap id).any (fun s => s.channel_id == c) = false) :
    c ∉ table_channel_ids subs := by
  intro hc
  simp only [table_channel_ids, List.mem_map] at hc
  obtain ⟨s, hs, hc⟩ := hc
  simp only [List.any_eq_false] at h
  exact absurd (by simp [hc]) (h s hs)

/-- Claim C4: `register_subscription` overwrites an existing slot with
the same channel in place (never failing with
`NoMoreSubscriptionSpace`), otherwise places the subscription in the
first empty slot, otherwise fails `NoMoreSubscriptionSpace`; every
success re-serializes the whole table and flushes it to persistent
storage before returning, and the at-most-one-slot-per-channel
invariant is preserved. -/
theorem register_subscription_spec (d : Decoder) (sub : Subscription) (flash_ok : Bool) :
    ((d.subscriptions.filterMap id).any
        (fun s => s.channel_id == sub.channel_id) = true →
      d.register_subscription sub flash_ok ≠ .error .NoMoreSubscriptionSpace ∧
      (flash_ok = true →
        d.register_subscription sub flash_ok =
          .ok ({ d with subscriptions := replace_first_match d.subscriptions sub },
               some (serialize_table (replace_first_match d.subscriptions sub))))) ∧
    ((d.subscriptions.filterMap id).any
        (fun s => s.channel_id == sub.channel_id) = false →
      d.subscriptions.any (fun s => s.isNone) = true →
      flash_ok = true →
      d.register_subscription sub flash_ok =
        .ok ({ d with subscriptions := place_first_empty d.subscriptions sub },
             some (serialize_table (place_first_empty d.subscriptions sub)))) ∧
    ((d.subscriptions.filterMap id).any
        (fun s => s.channel_id == sub.channel_id) = false →
      d.subscriptions.any (fun s => s.isNone) = false →
      d.register_subscription sub flash_ok = .error .NoMoreSubscriptionSpace) ∧
    (∀ d' p, d.register_subscription sub flash_ok = .ok (d', p) →
      p = some (serialize_table d'.subscriptions) ∧
      (at_most_one_per_channel d.subscriptions →
        at_most_one_per_channel d'.subscriptions)) := by
  refine ⟨?_, ?_, ?_, ?_⟩
  · intro hfound
    unfold Decoder.register_subscription Decoder.flush_subscriptions
    rw [hfound]
    cases flash_ok <;> simp [Except.map]
  · intro hfound hempty hflash
    unfold Decoder.register_subscription Decoder.flush_subscriptions
    rw [hfound, hempty, hflash]
    simp [Except.map]
  · intro hfound hempty
    unfold Decoder.register_subscription
    rw [hfound, hempty]
    simp
  · intro d' p hok
    unfold Decoder.register_subscription Decoder.flush_subscriptions at hok
    split at hok
    · cases hflash : flash_ok <;> rw [hflash] at hok
      · simp [Except.map] at hok
      · simp only [reduceIte, Except.map, Except.ok.injEq, Prod.mk.injEq] at hok
        obtain ⟨hd, hp⟩ := hok
        subst hd
        subst hp
        refine ⟨rfl, fun hinv => ?_⟩
        unfold at_most_one_per_channel at hinv ⊢
        rw [table_channel_ids_replace]
        exact hinv
    · split at hok
      · rename_i hfound hempty
        cases hflash : flash_ok <;> rw [hflash] at hok
        · simp [Except.map] at hok
        · simp only [reduceIte, Except.map, Except.ok.injEq, Prod.mk.injEq] at hok
          obtain ⟨hd, hp⟩ := hok
          subst hd
          subst hp
          refine ⟨rfl, fun hinv => ?_⟩
          unfold at_most_one_per_channel at hinv ⊢
          exact nodup_table_channel_ids_place sub d.subscriptions
            (not_mem_of_any_eq_false (by simpa using hfound)) hinv
      · simp at hok

/-- Witness for C4 at concrete inputs: a full table of channels 1-8
rejects channel 9 with `NoMoreSubscriptionSpace`. -/
theorem register_subscription_spec_witness :
    ((((List.range 8).map
          (fun i => some ⟨i + 1, 0, 0, List.replicate 32 0⟩) :
        List (Option Subscription)).filterMap id).any
        (fun s => s.channel_id == (9 : Nat)) = false ∧
      ((List.range 8).map
          (fun i => (some ⟨i + 1, 0, 0, List.replicate 32 0⟩ : Option Subscription))).any
        (fun s => s.isNone) = false ∧
      (Decoder.mk ((List.range 8).map
          (fun i => some ⟨i + 1, 0, 0, List.replicate 32 0⟩)) none).register_subscription
          ⟨9, 0, 0, List.replicate 32 0⟩ true = .error .NoMoreSubscriptionSpace) := by
  refine ⟨by decide, by decide, ?_⟩
  exact (register_subscription_spec
    (Decoder.mk ((List.range 8).map
      (fun i => some ⟨i + 1, 0, 0, List.replicate 32 0⟩)) none)
    ⟨9, 0, 0, List.replicate 32 0⟩ true).2.2.1 (by decide) (by decide)

/-! ### Claim C8 -/

theorem mem_table_channel_ids_place_self (s : Subscription) :
    ∀ subs : List (Option Subscription),
    subs.any (fun o => o.isNone) = true →
    s.channel_id ∈ table_channel_ids (place_first_empty subs s) := by
  intro subs
  induction subs with
  | nil => intro h; simp at h
  | cons slot rest ih =>
    cases slot with
    | none =>
      intro _
      rw [show place_first_empty (none :: rest) s = some s :: rest from rfl,
        table_channel_ids_cons_some]
      exact List.mem_cons.mpr (.inl rfl)
    | some t =>
      intro h
      simp only [List.any_cons, Option.isNone_some, Bool.false_or] at h
      rw [show place_first_empty (some t :: rest) s =
            some t :: place_first_empty rest s from rfl,
        table_channel_ids_cons_some]
      exact List.mem_cons.mpr (.inr (ih h))

theorem decode_with_curr_time_congr (d1 d2 : Decoder)
    (hct : d1.curr_time = d2.curr_time) (st et : Nat) (key : Bytes)
    (dec : DecryptOracle) (nonce tag sig payload : Bytes) :
    (decode_with d1 st et key dec nonce tag sig payload).map
        (fun r => (r.1, r.2.curr_time)) =
      (decode_with d2 st et key dec nonce tag sig payload).map
        (fun r => (r.1, r.2.curr_time)) := by
  unfold decode_with
  cases hdec : dec key nonce tag sig payload with
  | none => simp only [hdec]
  | some plaintext =>
    simp only [hdec]
    rw [hct]
    split
    · rfl
    · split <;> rfl

/-- Counterexample to claim C8 as stated: a Subscribe whose decrypted
`channel_id` is 0 is accepted by `register_subscription` on a fresh
decoder and lands in the first table slot, so a channel-0 subscription
does appear in the table afterward. -/
theorem channel0_subscription_stored_counterexample :
    sample_decoder.register_subscription ⟨0, 0, 10, List.replicate 32 0⟩ true =
      .ok (⟨some ⟨0, 0, 10, List.replicate 32 0⟩ :: List.replicate 7 none, none⟩,
        some (serialize_table
          (some ⟨0, 0, 10, List.replicate 32 0⟩ :: List.replicate 7 none))) ∧
      (0 : Nat) ∈ table_channel_ids
        (some ⟨0, 0, 10, List.replicate 32 0⟩ :: List.replicate 7 none) := by
  exact ⟨rfl, by decide⟩

/-- Claim C8, amended: the code does store channel-0 subscriptions —
`register_subscription` treats channel 0 like any other channel, so a
Subscribe with decrypted `channel_id = 0` lands in a table slot
whenever the table has room — but such entries are behaviorally inert:
`decode_frame` for channel 0 never consults the table (its result is
independent of the table contents, given the same `curr_time`). -/
theorem channel0_subscription_stored_but_inert (d : Decoder) (sub : Subscription) :
    (sub.channel_id = 0 →
      (d.subscriptions.filterMap id).any
          (fun s => s.channel_id == sub.channel_id) = false →
      d.subscriptions.any (fun o => o.isNone) = true →
      ∃ d' p, d.register_subscription sub true = .ok (d', p) ∧
        (0 : Nat) ∈ table_channel_ids d'.subscriptions) ∧
    (∀ (subs2 : List (Option Subscription)) (channel_0_key : Bytes)
       (dec : DecryptOracle) (nonce tag sig payload : Bytes),
      (d.decode_frame channel_0_key dec 0 nonce tag sig payload).map
          (fun r => (r.1, r.2.curr_time)) =
        ((Decoder.mk subs2 d.curr_time).decode_frame channel_0_key dec 0 nonce tag
            sig payload).map
          (fun r => (r.1, r.2.curr_time))) := by
  constructor
  · intro h0 hfound hempty
    refine ⟨{ d with subscriptions := place_first_empty d.subscriptions sub },
      some (serialize_table (place_first_empty d.subscriptions sub)), ?_, ?_⟩
    · exact (register_subscription_spec d sub true).2.1 hfound hempty rfl
    · rw [← h0]
      exact mem_table_channel_ids_place_self sub d.subscriptions hempty
  · intro subs2 k0 dec nonce tag sig payload
    unfold Decoder.decode_frame
    simp only [if_pos rfl]
    exact decode_with_curr_time_congr d (Decoder.mk subs2 d.curr_time) rfl 0 U64_MAX
      k0 dec nonce tag sig payload

/-- Witness for the amended C8 at concrete inputs: the channel-0
subscription of the counterexample is stored on a fresh decoder. -/
theorem channel0_subscription_stored_but_inert_witness :
    ((0 : Nat) = 0 ∧
      ((sample_decoder.subscriptions.filterMap id).any
          (fun s => s.channel_id == (0 : Nat)) = false) ∧
      sample_decoder.subscriptions.any (fun o => o.isNone) = true) ∧
    ∃ d' p, sample_decoder.register_subscription ⟨0, 0, 10, List.replicate 32 0⟩ true =
        .ok (d', p) ∧ (0 : Nat) ∈ table_channel_ids d'.subscriptions := by
  refine ⟨⟨rfl, by decide, by decide⟩, ?_⟩
  exact (channel0_subscription_stored_but_inert sample_decoder
    ⟨0, 0, 10, List.replicate 32 0⟩).1 rfl (by decide) (by decide)

/-! ### Claim C7 -/

/-- Claim C7: when the stored image has a valid magic but AEAD
verification of the ciphertext fails, `fill_buffer` zeroizes and
clears the RAM buffer yet still returns `Ok`, and the decoder built
from that buffer has an empty subscription table: every slot is empty,
the List iteration is empty, and decoding any nonzero channel fails
`NoSubscription`. -/
theorem persistence_read_failure_degrades (f : Flash) (oracle : FlashDecryptOracle)
    (hmagic : f PERSIST_BASE_ADDR = FLASH_INITIALIZED_MAGIC)
    (hlen : f DATA_LEN_ADDR ≤ STORAGE_MAX)
    (hfail : oracle (read_data_bytes f DATA_BASE_ADDR (f DATA_LEN_ADDR))
      (stored_nonce f) (stored_tag f) = none) :
    storage_init f oracle = .ok [] ∧
      (Decoder.new []).subscriptions = List.replicate 8 none ∧
      (Decoder.new []).subscriptions.filterMap id = [] ∧
      (∀ (channel_0_key : Bytes) (dec : DecryptOracle) (channel_id : Nat)
         (nonce tag sig payload : Bytes), channel_id ≠ 0 →
        (Decoder.new []).decode_frame channel_0_key dec channel_id nonce tag sig
          payload = .error .NoSubscription) := by
  refine ⟨?_, by decide, by decide, ?_⟩
  · unfold storage_init fill_buffer
    rw [if_neg (by simp [hmagic]), if_neg (by omega)]
    simp only [hfail]
  · intro k0 dec cid nonce tag sig payload hcid
    unfold Decoder.decode_frame
    rw [if_neg hcid]
    have hsub : (Decoder.new []).get_subscription cid = none := by
      unfold Decoder.get_subscription
      have hfm : (Decoder.new []).subscriptions.filterMap id = [] := by decide
      rw [hfm]
      rfl
    rw [hsub]

/-- Witness for C7 at a concrete flash image: magic present, length 0,
an oracle that rejects everything. -/
theorem persistence_read_failure_degrades_witness :
    ((fun a => if a = PERSIST_BASE_ADDR then FLASH_INITIALIZED_MAGIC else 0 : Flash)
        PERSIST_BASE_ADDR = FLASH_INITIALIZED_MAGIC ∧
      (fun a => if a = PERSIST_BASE_ADDR then FLASH_INITIALIZED_MAGIC else 0 : Flash)
        DATA_LEN_ADDR ≤ STORAGE_MAX) ∧
    storage_init
      (fun a => if a = PERSIST_BASE_ADDR then FLASH_INITIALIZED_MAGIC else 0)
      (fun _ _ _ => none) = .ok [] := by
  refine ⟨⟨by decide, by decide⟩, ?_⟩
  exact (persistence_read_failure_degrades
    (fun a => if a = PERSIST_BASE_ADDR then FLASH_INITIALIZED_MAGIC else 0)
    (fun _ _ _ => none) (by decide) (by decide) rfl).1

/-! ### Claim C9 -/

/-- Counterexample to claim C9 as stated: a List request with declared
length 1 is rejected before its body is consumed, but the rejection is
reported through a dynamically formatted string written directly by
the handler — not through the `PacketWrongSize` error kind, whose
fixed message is never used on this path. -/
theorem size_mismatch_not_packet_wrong_size :
    (run_command (.ok ⟨.List, 1⟩) sample_decoder none [] [] no_decrypt true
        zero_stream).1.report = .dyn_error (list_size_error_message 1) ∧
      CmdReport.dyn_error (list_size_error_message 1) ≠
        CmdReport.err .PacketWrongSize ∧
      list_size_error_message 1 ≠ DecoderError.PacketWrongSize.message := by
  refine ⟨rfl, by decide, by decide⟩

/-- Claim C9, amended: a List request with declared length other than
0 and a Subscribe request with declared length other than
`SUBSCRIPTION_MESSAGE_SIZE` (156) are rejected before any body byte is
consumed, but the rejection is reported via `print_error` with a
dynamically formatted message naming the offending size — the
`PacketWrongSize` error kind is defined yet never produced on these
paths. -/
theorem fixed_size_requests_rejected_before_body (d : Decoder)
    (persisted : Option Bytes) (channel_0_key decoder_key : Bytes)
    (decrypt : DecryptOracle) (flash_ok : Bool) (body : Nat → Nat) (s : Nat) :
    (s ≠ 0 →
      run_command (.ok ⟨.List, s⟩) d persisted channel_0_key decoder_key decrypt
          flash_ok body =
        (⟨.dyn_error (list_size_error_message s), 0,
          [.write_ack, .write_error (list_size_error_message s)]⟩, d, persisted)) ∧
    (s ≠ SUBSCRIPTION_MESSAGE_SIZE →
      run_command (.ok ⟨.Subscribe, s⟩) d persisted channel_0_key decoder_key
          decrypt flash_ok body =
        (⟨.dyn_error (subscribe_size_error_message s), 0,
          [.write_ack, .write_error (subscribe_size_error_message s)]⟩, d,
          persisted)) := by
  constructor
  · intro hs
    unfold run_command
    simp only [if_pos hs]
  · intro hs
    unfold run_command
    simp only [if_pos hs]

/-- Witness for the amended C9 at concrete sizes 1 and 0. -/
theorem fixed_size_requests_rejected_before_body_witness :
    ((1 : Nat) ≠ 0 ∧
      run_command (.ok ⟨.List, 1⟩) sample_decoder none [] [] no_decrypt true
          zero_stream =
        (⟨.dyn_error (list_size_error_message 1), 0,
          [.write_ack, .write_error (list_size_error_message 1)]⟩,
          sample_decoder, none)) ∧
    ((0 : Nat) ≠ SUBSCRIPTION_MESSAGE_SIZE ∧
      run_command (.ok ⟨.Subscribe, 0⟩) sample_decoder none [] [] no_decrypt true
          zero_stream =
        (⟨.dyn_error (subscribe_size_error_message 0), 0,
          [.write_ack, .write_error (subscribe_size_error_message 0)]⟩,
          sample_decoder, none)) := by
  constructor
  · exact ⟨by decide,
      (fixed_size_requests_rejected_before_body sample_decoder none [] []
        no_decrypt true zero_stream 1).1 (by decide)⟩
  · exact ⟨by decide,
      (fixed_size_requests_rejected_before_body sample_decoder none [] []
        no_decrypt true zero_stream 0).2 (by decide)⟩

/-! ### Claim C10 -/

/-- Claim C10: for every Decode request with declared packet length
below 116 = 4 + 8 + 104, the wrapping `u16` computation
`packet_length - 4 - 8 - ENCODER_CRYPTO_HEADER_LEN` lands above 64, so
`DecoderConsole::decode_frame` rejects the request with
`FrameTooLarge` before reading a single body byte; the hypothesis
`packet_length < 116` is exactly the condition under which checked
subtraction would underflow instead. -/
theorem short_decode_packet_rejected (packet_length : Nat)
    (hp : packet_length < 116) :
    console_frame_length packet_length = packet_length + 65420 ∧
      console_frame_length packet_length > 64 ∧
      (∀ (d : Decoder) (channel_0_key : Bytes) (decrypt : DecryptOracle)
         (body : Nat → Nat),
        console_decode_frame d channel_0_key decrypt packet_length body =
          (.error .FrameTooLarge, 0, [])) ∧
      packet_length < 4 + 8 + ENCODER_CRYPTO_HEADER_LEN := by
  have hfl : console_frame_length packet_length = packet_length + 65420 := by
    unfold console_frame_length u16_wrapping_sub ENCODER_CRYPTO_HEADER_LEN
    norm_num
    omega
  refine ⟨hfl, by omega, ?_, by unfold ENCODER_CRYPTO_HEADER_LEN; omega⟩
  intro d k0 dec body
  unfold console_decode_frame
  rw [if_pos (by omega)]

/-- Witness for C10 at packet length 0 (an empty Decode request wraps
to frame length 65420 and is rejected without reading the body). -/
theorem short_decode_packet_rejected_witness :
    (0 : Nat) < 116 ∧
      console_decode_frame sample_decoder [] no_decrypt 0 zero_stream =
        (.error .FrameTooLarge, 0, []) := by
  exact ⟨by decide,
    (short_decode_packet_rejected 0 (by decide)).2.2.1 sample_decoder [] no_decrypt
      zero_stream⟩

/-! ### Claim C6 -/

theorem data_write_ops_shape : ∀ (chunks : List Bytes) (regs : List Nat)
    (i cursor : Nat) (remainder : Bytes),
    ∀ op ∈ data_write_ops chunks regs i cursor remainder,
      ∃ a w0 w1 w2 w3, op = .write_128 a w0 w1 w2 w3 ∧ cursor ≤ a := by
  intro chunks
  induction chunks with
  | nil =>
    intro regs i cursor remainder op hop
    simp only [data_write_ops, List.mem_singleton] at hop
    exact ⟨cursor, _, _, _, _, hop, le_refl _⟩
  | cons chunk chunks ih =>
    intro regs i cursor remainder op hop
    rw [data_write_ops] at hop
    split at hop
    · rcases List.mem_cons.mp hop with h | h
      · exact ⟨cursor, _, _, _, _, h, le_refl _⟩
      · obtain ⟨a, w0, w1, w2, w3, heq, ha⟩ := ih _ _ _ _ op h
        exact ⟨a, w0, w1, w2, w3, heq, by omega⟩
    · exact ih _ _ _ _ op hop

/-- An operation that cannot clear the erased pattern from the magic
word once it is there. -/
def keeps_magic_unset (op : FlashOp) : Prop :=
  ∀ f : Flash, f PERSIST_BASE_ADDR = ERASED_WORD →
    op.apply f PERSIST_BASE_ADDR = ERASED_WORD

theorem apply_ops_keeps_magic_unset : ∀ ops : List FlashOp,
    (∀ op ∈ ops, keeps_magic_unset op) → ∀ f : Flash,
    f PERSIST_BASE_ADDR = ERASED_WORD →
    apply_ops ops f PERSIST_BASE_ADDR = ERASED_WORD := by
  intro ops
  induction ops with
  | nil => intro _ f hf; exact hf
  | cons op rest ih =>
    intro hall f hf
    exact ih (fun o ho => hall o (List.mem_cons.mpr (.inr ho))) (op.apply f)
      (hall op (List.mem_cons.mpr (.inl rfl)) f hf)

theorem write_128_above_keeps_magic_unset {a w0 w1 w2 w3 : Nat}
    (ha : PERSIST_BASE_ADDR < a) :
    keeps_magic_unset (.write_128 a w0 w1 w2 w3) := by
  intro f hf
  simp only [FlashOp.apply]
  rw [if_neg (by omega), if_neg (by omega), if_neg (by omega), if_neg (by omega)]
  exact hf

/-- Claim C6: `flush_buffer` performs, in order, the page erase, the
header block with the magic slot left at `0xFFFFFFFF`, the low-nonce
block, the tag block, the ciphertext blocks (all at or above
`DATA_BASE_ADDR`), and only then the single `write_32` of the
initialization magic; truncating the operation sequence anywhere after
the erase and before that final write leaves the magic word reading as
the erased pattern, never as `FLASH_INITIALIZED_MAGIC`. -/
theorem flush_buffer_magic_last (cipher nonce tag : Bytes) :
    (flush_buffer_ops cipher nonce tag).getLast? =
        some (.write_32 PERSIST_BASE_ADDR FLASH_INITIALIZED_MAGIC) ∧
      (∃ data_ops, flush_buffer_ops cipher nonce tag =
          .erase_page PERSIST_BASE_ADDR ::
          .write_128 PERSIST_BASE_ADDR 0xFFFFFFFF cipher.length
            (u32_from_le_bytes (nonce.take 4)) (u32_from_le_bytes (nonce.drop 4)) ::
          .write_128 (PERSIST_BASE_ADDR + 16) (u32_from_le_bytes (nonce.drop 8))
            (u32_from_le_bytes (nonce.drop 12)) (u32_from_le_bytes (nonce.drop 16))
            (u32_from_le_bytes (nonce.drop 20)) ::
          .write_128 (PERSIST_BASE_ADDR + 32) (u32_from_le_bytes tag)
            (u32_from_le_bytes (tag.drop 4)) (u32_from_le_bytes (tag.drop 8))
            (u32_from_le_bytes (tag.drop 12)) ::
          (data_ops ++ [.write_32 PERSIST_BASE_ADDR FLASH_INITIALIZED_MAGIC]) ∧
        ∀ op ∈ data_ops, ∃ a w0 w1 w2 w3,
          op = FlashOp.write_128 a w0 w1 w2 w3 ∧ DATA_BASE_ADDR ≤ a) ∧
      (∀ k, 1 ≤ k → k < (flush_buffer_ops cipher nonce tag).length →
        ∀ f0 : Flash,
          apply_ops ((flush_buffer_ops cipher nonce tag).take k) f0
            PERSIST_BASE_ADDR ≠ FLASH_INITIALIZED_MAGIC) := by
  have hshape := data_write_ops_shape (chunks4 cipher) [0, 0, 0, 0] 0 DATA_BASE_ADDR
    (chunks4_remainder cipher)
  refine ⟨?_, ⟨data_write_ops (chunks4 cipher) [0, 0, 0, 0] 0 DATA_BASE_ADDR
    (chunks4_remainder cipher), ?_, hshape⟩, ?_⟩
  · unfold flush_buffer_ops
    exact List.getLast?_concat _
  · rfl
  · intro k hk1 hk2 f0
    -- the whole trace is the erase followed by `mid`
    set mid := (FlashOp.write_128 PERSIST_BASE_ADDR 0xFFFFFFFF cipher.length
        (u32_from_le_bytes (nonce.take 4)) (u32_from_le_bytes (nonce.drop 4)) ::
      FlashOp.write_128 (PERSIST_BASE_ADDR + 16) (u32_from_le_bytes (nonce.drop 8))
        (u32_from_le_bytes (nonce.drop 12)) (u32_from_le_bytes (nonce.drop 16))
        (u32_from_le_bytes (nonce.drop 20)) ::
      FlashOp.write_128 (PERSIST_BASE_ADDR + 32) (u32_from_le_bytes tag)
        (u32_from_le_bytes (tag.drop 4)) (u32_from_le_bytes (tag.drop 8))
        (u32_from_le_bytes (tag.drop 12)) ::
      data_write_ops (chunks4 cipher) [0, 0, 0, 0] 0 DATA_BASE_ADDR
        (chunks4_remainder cipher)) with hmid
    have hflush : flush_buffer_ops cipher nonce tag =
        FlashOp.erase_page PERSIST_BASE_ADDR :: (mid ++
          [FlashOp.write_32 PERSIST_BASE_ADDR FLASH_INITIALIZED_MAGIC]) := by
      rw [hmid]; rfl
    have hmid_keeps : ∀ op ∈ mid, keeps_magic_unset op := by
      rw [hmid]
      intro op hop
      rcases List.mem_cons.mp hop with h | hop
      · subst h
        intro f hf
        simp [FlashOp.apply, ERASED_WORD]
      · rcases List.mem_cons.mp hop with h | hop
        · subst h
          exact write_128_above_keeps_magic_unset (by omega)
        · rcases List.mem_cons.mp hop with h | hop
          · subst h
            exact write_128_above_keeps_magic_unset (by omega)
          · obtain ⟨a, w0, w1, w2, w3, heq, ha⟩ := hshape op hop
            subst heq
            exact write_128_above_keeps_magic_unset
              (by unfold DATA_BASE_ADDR at ha; omega)
    obtain ⟨k', rfl⟩ : ∃ k', k = k' + 1 := ⟨k - 1, by omega⟩
    have hlen : k' ≤ mid.length := by
      rw [hflush] at hk2
      simp only [List.length_cons, List.length_append, List.length_singleton,
        List.length_nil] at hk2
      omega
    rw [hflush, List.take_succ_cons, List.take_append_of_le_length hlen]
    intro hcontra
    have herased : apply_ops (mid.take k')
        ((FlashOp.erase_page PERSIST_BASE_ADDR).apply f0) PERSIST_BASE_ADDR =
        ERASED_WORD := by
      refine apply_ops_keeps_magic_unset _
        (fun op hop => hmid_keeps op (List.take_subset _ _ hop)) _ ?_
      simp only [FlashOp.apply]
      rw [if_pos ⟨le_refl _, by unfold FLASH_PAGE_SIZE; omega⟩]
    rw [show apply_ops (FlashOp.erase_page PERSIST_BASE_ADDR :: mid.take k') f0 =
        apply_ops (mid.take k') ((FlashOp.erase_page PERSIST_BASE_ADDR).apply f0)
        from rfl] at hcontra
    rw [hcontra] at herased
    exact absurd herased (by decide)

/-- Witness for C6: on the empty ciphertext with zero nonce and tag,
the trace has six operations, and the prefix of length one (just the
page erase) leaves the magic word erased. -/
theorem flush_buffer_magic_last_witness :
    (1 : Nat) ≤ 1 ∧
      1 < (flush_buffer_ops [] (List.replicate 24 0) (List.replicate 16 0)).length ∧
      apply_ops ((flush_buffer_ops [] (List.replicate 24 0)
          (List.replicate 16 0)).take 1) (fun _ => 0) PERSIST_BASE_ADDR ≠
        FLASH_INITIALIZED_MAGIC := by
  refine ⟨le_refl 1, by decide, ?_⟩
  exact (flush_buffer_magic_last [] (List.replicate 24 0)
    (List.replicate 16 0)).2.2 1 (le_refl 1) (by decide) (fun _ => 0)

/-! ### Claim C1 -/

theorem console_decode_frame_no_clock (d : Decoder) (channel_0_key : Bytes)
    (dec : DecryptOracle) (n : Nat) (body : Nat → Nat) :
    Ev.clock_start ∉ (console_decode_frame d channel_0_key dec n body).2.2 ∧
      Ev.clock_wait ∉ (console_decode_frame d channel_0_key dec n body).2.2 := by
  constructor <;>
    · unfold console_decode_frame
      dsimp only
      split
      · simp
      · split <;> simp

theorem run_command_no_clock (hdr : Except Nat DecoderPacketHeader) (d : Decoder)
    (persisted : Option Bytes) (channel_0_key decoder_key : Bytes)
    (dec : DecryptOracle) (flash_ok : Bool) (body : Nat → Nat) :
    Ev.clock_start ∉ (run_command hdr d persisted channel_0_key decoder_key dec
        flash_ok body).1.events ∧
      Ev.clock_wait ∉ (run_command hdr d persisted channel_0_key decoder_key dec
        flash_ok body).1.events := by
  unfold run_command
  cases hdr with
  | error b => simp
  | ok h =>
    obtain ⟨mt, s⟩ := h
    cases mt with
    | List =>
      dsimp only
      split <;> simp
    | Subscribe =>
      dsimp only
      split
      · simp
      · split
        · simp
        · split <;> simp
    | Decode =>
      have hc := console_decode_frame_no_clock d channel_0_key dec s body
      dsimp only
      split
      · rename_i e consumed evs heq
        rw [heq] at hc
        simp only at hc
        simp [hc.1, hc.2]
      · rename_i d2 consumed evs heq
        rw [heq] at hc
        simp only at hc
        simp [hc.1, hc.2]

theorem main_loop_iter_no_clock (hdr : Except Nat DecoderPacketHeader) (d : Decoder)
    (persisted : Option Bytes) (channel_0_key decoder_key : Bytes)
    (dec : DecryptOracle) (flash_ok : Bool) (body : Nat → Nat) :
    Ev.clock_start ∉ (main_loop_iter hdr d persisted channel_0_key decoder_key dec
        flash_ok body).1 ∧
      Ev.clock_wait ∉ (main_loop_iter hdr d persisted channel_0_key decoder_key dec
        flash_ok body).1 := by
  have hr := run_command_no_clock hdr d persisted channel_0_key decoder_key dec
    flash_ok body
  unfold main_loop_iter
  split
  rename_i res d2 p2 heq
  rw [heq] at hr
  split <;> simp_all

/-- Claim C1 is what the firmware intends (the transaction clock of
timer.rs exists to enforce the 5-second floor, per its own comments),
but the dispatcher never uses it: no main-loop iteration ever starts
or waits on the clock — the `E` response is written immediately on
every error path — and a clock whose transaction was never started
would not wait either.  The last conjunct records the deadline the
clock would enforce if `start_transaction` and
`wait_for_max_transaction_time` were called. -/
theorem error_responses_not_delayed :
    (∀ (hdr : Except Nat DecoderPacketHeader) (d : Decoder)
       (persisted : Option Bytes) (channel_0_key decoder_key : Bytes)
       (dec : DecryptOracle) (flash_ok : Bool) (body : Nat → Nat),
      Ev.clock_start ∉ (main_loop_iter hdr d persisted channel_0_key decoder_key
          dec flash_ok body).1 ∧
        Ev.clock_wait ∉ (main_loop_iter hdr d persisted channel_0_key decoder_key
          dec flash_ok body).1) ∧
      (main_loop_iter (.error 88) sample_decoder none [] [] no_decrypt true
          zero_stream).1 =
        [.write_error (invalid_command_error_message 88)] ∧
      (∀ now : Nat, (DecoderClock.mk none).wait_return_tick now = now) ∧
      (∀ start now : Nat, (DecoderClock.mk (some start)).wait_return_tick now =
        max now (start + TRANSACTION_TIME_TICKS)) := by
  exact ⟨main_loop_iter_no_clock, rfl, fun _ => rfl, fun _ _ => rfl⟩

end Decoder2025
